import Mathlib

/-!
Verification of the session lifecycle and scheduling engine of the
My-Physio-App repository.

The definitions below are a shallow embedding of the code:

* `src/server/routes/sessions.js` — the Express session routes
  (list/filter, past, upcoming, by-patient, create, update, delete);
* the Express patient routes (create, update, delete, get) that are
  concatenated at the end of `src/utils/mongoStorage.ts`;
* `src/utils/mongoStorage.ts` — the client API wrappers, in particular
  `getTodaySessions`;
* `src/components/SessionForm.tsx` — `formatDateForStorage`,
  `handleSubmit` and the `new Date(existingSession.date)` parse;
* `src/app/(tabs)/upcoming.tsx` — `handleToggleComplete`;
* `src/utils/notifications.ts` — `scheduleSessionNotification`.

JavaScript strings are compared code-unit-lexicographically (and MongoDB
compares the stored `YYYY-MM-DD` / `HH:MM` strings the same way on this
data), so string comparison is embedded as a structural lexicographic
comparison on the character list of the string.  MongoDB collections are
embedded as insertion-ordered lists and `find(query).sort(...)` as
`List.filter` followed by a stable insertion sort.  JavaScript `Date`
values are embedded as minutes since the Unix epoch together with an
explicit timezone offset (the value of `getTimezoneOffset()`, positive
west of UTC), with the proleptic Gregorian calendar conversions spelled
out on `Nat`.
-/

/-- Strict code-unit lexicographic comparison of two character lists,
the order JavaScript's `<` and MongoDB's string sort use on the
fixed-width date/time strings of this app. -/
def charListLt : List Char → List Char → Bool
  | [], [] => false
  | [], _ :: _ => true
  | _ :: _, [] => false
  | a :: as, b :: bs => decide (a < b) || (decide (a = b) && charListLt as bs)

/-- JavaScript `a < b` on strings. -/
def strLtb (a b : String) : Bool := charListLt a.data b.data

/-- JavaScript `a <= b` on strings. -/
def strLeb (a b : String) : Bool := strLtb a b || decide (a = b)

/-- Split a character list at every occurrence of the separator, the
character-level behaviour of `String.prototype.split`. -/
def splitChar (c : Char) : List Char → List (List Char)
  | [] => [[]]
  | x :: xs =>
    match splitChar c xs with
    | [] => [[x]]
    | g :: gs => if x == c then [] :: g :: gs else (x :: g) :: gs

/-- Numeric value of a non-empty all-digit character list; `none` when
the list is empty or contains a non-digit. -/
def digitsToNat : List Char → Option Nat
  | [] => none
  | l =>
    if l.all Char.isDigit then
      some (l.foldl (fun a c => a * 10 + (c.toNat - 48)) 0)
    else none

/-- Parse `"YYYY-MM-DD"` into numeric year, month and day components. -/
def parseDateYMD (s : String) : Option (Nat × Nat × Nat) :=
  match splitChar '-' s.data with
  | [ys, ms, ds] =>
    match digitsToNat ys, digitsToNat ms, digitsToNat ds with
    | some y, some m, some d => some (y, m, d)
    | _, _, _ => none
  | _ => none

/-- Parse `"HH:MM"` into minutes after local midnight. -/
def parseTimeHM (s : String) : Option Nat :=
  match splitChar ':' s.data with
  | [hs, ms] =>
    match digitsToNat hs, digitsToNat ms with
    | some h, some m => some (h * 60 + m)
    | _, _ => none
  | _ => none

/-- Days from 1970-01-01 to the given proleptic-Gregorian civil date
(valid for dates from 1970 on), as computed by JavaScript `Date`. -/
def daysFromCivil (y m d : Nat) : Nat :=
  let y' := if m ≤ 2 then y - 1 else y
  let era := y' / 400
  let yoe := y' % 400
  let mp := if m > 2 then m - 3 else m + 9
  let doy := (153 * mp + 2) / 5 + d - 1
  let doe := yoe * 365 + yoe / 4 - yoe / 100 + doy
  era * 146097 + doe - 719468

/-- Civil date (year, month, day) of the given day count from
1970-01-01, the calendar JavaScript's local-date getters expose. -/
def civilFromDays (z : Nat) : Nat × Nat × Nat :=
  let z' := z + 719468
  let era := z' / 146097
  let doe := z' % 146097
  let yoe := (doe - doe / 1460 + doe / 36524 - doe / 146096) / 365
  let y := yoe + era * 400
  let doy := doe - (365 * yoe + yoe / 4 - yoe / 100)
  let mp := (5 * doy + 2) / 153
  let d := doy - (153 * mp + 2) / 5 + 1
  let m := if mp < 10 then mp + 3 else mp - 9
  (if m ≤ 2 then y + 1 else y, m, d)

/-- `String(n).padStart(2, '0')` for the month/day components. -/
def pad2 (n : Nat) : String :=
  if n < 10 then "0" ++ toString n else toString n

/-- The error taxonomy of the spec (§7), as surfaced by the routes and
screens: HTTP 400 ↦ `validation`, HTTP 404 ↦ `notFound`, the client-side
"Cannot Complete" rejection ↦ `precondition`. -/
inductive ApiError where
  | validation
  | notFound
  | precondition
deriving Repr, DecidableEq

instance {ε α : Type} [DecidableEq ε] [DecidableEq α] : DecidableEq (Except ε α) := fun a b =>
  match a, b with
  | Except.error e, Except.error f =>
    if h : e = f then isTrue (by rw [h])
    else isFalse (fun hh => by cases hh; exact h rfl)
  | Except.error _, Except.ok _ => isFalse (fun hh => by cases hh)
  | Except.ok _, Except.error _ => isFalse (fun hh => by cases hh)
  | Except.ok x, Except.ok y =>
    if h : x = y then isTrue (by rw [h])
    else isFalse (fun hh => by cases hh; exact h rfl)

/-- A session document as stored by the server (`amount` is `none` when
the Mongo field is `null`/absent). -/
structure Session where
  id : String
  userId : String
  patientId : String
  patientName : String
  date : String
  time : String
  notes : String
  completed : Bool
  amount : Option Nat
deriving Repr, DecidableEq

/-- A patient document (`src/server/models/Patient.js`). -/
structure PatientRec where
  id : String
  userId : String
  name : String
  contactNumber : String
deriving Repr, DecidableEq

/-- The two MongoDB collections, in insertion order. -/
structure Db where
  patients : List PatientRec
  sessions : List Session
deriving Repr, DecidableEq

/-- Ascending `(date, time)` comparison used by
`.sort({ date: 1, time: 1 })`. -/
def dtLeb (a b : Session) : Bool :=
  strLtb a.date b.date || (decide (a.date = b.date) && strLeb a.time b.time)

/-- `dtLeb` as a relation, for sorting. -/
def dtLeR (a b : Session) : Prop := dtLeb a b = true

/-- Descending `(date, time)` relation used by
`.sort({ date: -1, time: -1 })`. -/
def dtGeR (a b : Session) : Prop := dtLeb b a = true

instance : DecidableRel dtLeR := fun a b => by unfold dtLeR; infer_instance

instance : DecidableRel dtGeR := fun a b => by unfold dtGeR; infer_instance

/-- Query parameters of `GET /sessions` (`src/server/routes/sessions.js`
lines 34–58): each filter is applied only when present. -/
structure SessionQuery where
  patientId : Option String
  startDate : Option String
  endDate : Option String
  completed : Option Bool
deriving Repr, DecidableEq

/-- `GET /sessions` with no query parameters. -/
def emptyQuery : SessionQuery := ⟨none, none, none, none⟩

/-- The Mongo query object built by `GET /sessions`: owner scope plus
the optional `patientId`, `completed` and inclusive `$gte`/`$lte` date
bounds. -/
def matchesQuery (q : SessionQuery) (uid : String) (s : Session) : Bool :=
  decide (s.userId = uid) &&
  (match q.patientId with | some p => decide (s.patientId = p) | none => true) &&
  (match q.completed with | some c => decide (s.completed = c) | none => true) &&
  (match q.startDate with | some d => strLeb d s.date | none => true) &&
  (match q.endDate with | some d => strLeb s.date d | none => true)

/-- `GET /sessions`: filter by owner and query, sorted
`{ date: -1, time: -1 }`. -/
def serverGetSessions (store : List Session) (uid : String) (q : SessionQuery) :
    List Session :=
  List.insertionSort dtGeR (store.filter (matchesQuery q uid))

/-- `GET /sessions/upcoming`: the owner's incomplete sessions sorted
`{ date: 1, time: 1 }`. -/
def listUpcoming (store : List Session) (uid : String) : List Session :=
  List.insertionSort dtLeR (store.filter (fun s => decide (s.userId = uid) && !s.completed))

/-- `GET /sessions/past`: the owner's completed sessions sorted
`{ date: -1, time: -1 }`. -/
def listPast (store : List Session) (uid : String) : List Session :=
  List.insertionSort dtGeR (store.filter (fun s => decide (s.userId = uid) && s.completed))

/-- `new Date().toISOString().split('T')[0]` in `getTodaySessions`
(`src/utils/mongoStorage.ts` line 141): the **UTC** calendar date of the
instant "now" — `toISOString` always renders in UTC, so the zone offset
never enters this computation, unlike the spec's canonical *local*
date. -/
def jsTodayUTC (nowUtcMin : Int) : String :=
  let c := civilFromDays (Int.fdiv nowUtcMin 1440).toNat
  toString c.1 ++ "-" ++ pad2 c.2.1 ++ "-" ++ pad2 c.2.2

/-- `getTodaySessions` in `src/utils/mongoStorage.ts` (lines 138–147):
fetch `GET /sessions` (no query) and keep the sessions whose stored
`date` equals `new Date().toISOString().split('T')[0]`, the UTC date
string of the evaluation instant `nowUtcMin`. -/
def getTodaySessions (store : List Session) (uid : String) (nowUtcMin : Int) :
    List Session :=
  (serverGetSessions store uid emptyQuery).filter
    (fun s => decide (s.date = jsTodayUTC nowUtcMin))

/-- `GET /sessions/patient/:patientId`: 404 unless the patient exists
and is owned by the caller, else that patient's sessions sorted
`{ date: -1, time: -1 }`. -/
def serverListByPatient (db : Db) (uid pid : String) :
    Except ApiError (List Session) :=
  match db.patients.find? (fun p => decide (p.id = pid) && decide (p.userId = uid)) with
  | none => Except.error ApiError.notFound
  | some _ =>
    Except.ok (List.insertionSort dtGeR
      (db.sessions.filter (fun s => decide (s.userId = uid) && decide (s.patientId = pid))))

/-- `DELETE /patients/:id` (patients router at the end of
`src/utils/mongoStorage.ts`): `Patient.findOneAndDelete({_id, userId})`;
404 when no owned patient matches.  The route touches only the patients
collection. -/
def serverDeletePatient (db : Db) (uid pid : String) : Except ApiError Db :=
  match db.patients.find? (fun p => decide (p.id = pid) && decide (p.userId = uid)) with
  | none => Except.error ApiError.notFound
  | some _ =>
    Except.ok { db with
      patients := db.patients.filter (fun p => !(decide (p.id = pid) && decide (p.userId = uid))) }

/-- JavaScript truthiness of an optional string: `undefined` and `""`
are falsy. -/
def jsTruthy : Option String → Bool
  | some v => !(decide (v = ""))
  | none => false

/-- Request body of `PUT /sessions/:id`.  A field is `none` when the key
is absent from the JSON body (JavaScript `undefined`); `amount` also
distinguishes an explicit `null` (`some none`). -/
structure UpdateBody where
  patientId : Option String
  patientName : Option String
  date : Option String
  time : Option String
  notes : Option String
  completed : Option Bool
  amount : Option (Option Nat)
deriving Repr, DecidableEq

/-- The field-update block of `PUT /sessions/:id` (lines 198–205):
`patientId`/`patientName`/`date`/`time` are assigned only when truthy,
`notes`/`completed`/`amount` whenever the key is present. -/
def serverApplyUpdate (s : Session) (b : UpdateBody) : Session :=
  let s := match b.patientId with
    | some v => if v = "" then s else { s with patientId := v }
    | none => s
  let s := match b.patientName with
    | some v => if v = "" then s else { s with patientName := v }
    | none => s
  let s := match b.date with
    | some v => if v = "" then s else { s with date := v }
    | none => s
  let s := match b.time with
    | some v => if v = "" then s else { s with time := v }
    | none => s
  let s := match b.notes with
    | some v => { s with notes := v }
    | none => s
  let s := match b.completed with
    | some v => { s with completed := v }
    | none => s
  let s := match b.amount with
    | some v => { s with amount := v }
    | none => s
  s

/-- Modelled from the spec: the mongoose `Session` model
(`server/models/Session.js`) is not under `src/`; §4.1 and §7 of the
spec require malformed date/time strings to fail with a
`ValidationError` and never be silently coerced or persisted, so the
model's save-time validation is embedded as a canonical-format check:
`date` must be digit-only `YYYY-MM-DD` with a plausible month and day,
`time` digit-only 24-hour `HH:MM`. -/
def validDate (s : String) : Bool :=
  match splitChar '-' s.data with
  | [ys, ms, ds] =>
    decide (ys.length = 4) && decide (ms.length = 2) && decide (ds.length = 2) &&
    ys.all Char.isDigit && ms.all Char.isDigit && ds.all Char.isDigit &&
    (match digitsToNat ms, digitsToNat ds with
     | some m, some d => decide (1 ≤ m) && decide (m ≤ 12) && decide (1 ≤ d) && decide (d ≤ 31)
     | _, _ => false)
  | _ => false

/-- Modelled from the spec: 24-hour `HH:MM` validity check of the
missing mongoose `Session` model (see `validDate`). -/
def validTime (s : String) : Bool :=
  match splitChar ':' s.data with
  | [hs, ms] =>
    decide (hs.length = 2) && decide (ms.length = 2) &&
    hs.all Char.isDigit && ms.all Char.isDigit &&
    (match digitsToNat hs, digitsToNat ms with
     | some h, some m => decide (h ≤ 23) && decide (m ≤ 59)
     | _, _ => false)
  | _ => false

/-- Modelled from the spec: save-time validation of a session document
by the missing mongoose `Session` model (see `validDate`). -/
def sessionSchemaValid (s : Session) : Bool :=
  validDate s.date && validTime s.time

/-- `PUT /sessions/:id`: find the owned session, apply the field
updates, then `session.save()` (which re-runs the schema validation).
On success returns the new store and the saved session. -/
def serverUpdateSession (store : List Session) (uid sid : String) (b : UpdateBody) :
    Except ApiError (List Session × Session) :=
  match store.find? (fun s => decide (s.id = sid) && decide (s.userId = uid)) with
  | none => Except.error ApiError.notFound
  | some s =>
    let s' := serverApplyUpdate s b
    if sessionSchemaValid s' then
      Except.ok (store.map (fun t => if decide (t.id = sid) && decide (t.userId = uid) then s' else t), s')
    else Except.error ApiError.validation

/-- Request body of `POST /sessions`. -/
structure CreateBody where
  patientId : Option String
  patientName : Option String
  date : Option String
  time : Option String
  notes : Option String
  completed : Option Bool
  amount : Option Nat
deriving Repr, DecidableEq

/-- `amount || null` in the create route: `undefined`, `null` and `0`
all store `null`. -/
def jsAmountOrNull : Option Nat → Option Nat
  | some a => if a = 0 then none else some a
  | none => none

/-- `POST /sessions` (lines 143–182): 400 when a required field is
missing/empty, 404 when the patient is not owned by the caller, then
build the document (`notes || ''`, `completed || false`,
`amount || null`) and `session.save()` (schema validation), appending to
the collection. -/
def serverCreateSession (db : Db) (uid : String) (b : CreateBody) (newId : String) :
    Except ApiError (Db × Session) :=
  if !(jsTruthy b.patientId && jsTruthy b.patientName && jsTruthy b.date && jsTruthy b.time) then
    Except.error ApiError.validation
  else
    match db.patients.find? (fun p =>
        decide (p.id = b.patientId.getD "") && decide (p.userId = uid)) with
    | none => Except.error ApiError.notFound
    | some _ =>
      let s : Session :=
        { id := newId
          userId := uid
          patientId := b.patientId.getD ""
          patientName := b.patientName.getD ""
          date := b.date.getD ""
          time := b.time.getD ""
          notes := b.notes.getD ""
          completed := b.completed.getD false
          amount := jsAmountOrNull b.amount }
      if sessionSchemaValid s then
        Except.ok ({ db with sessions := db.sessions ++ [s] }, s)
      else Except.error ApiError.validation

/-- `JSON.stringify` of the client-side session object sent by
`updateSession` in `src/utils/mongoStorage.ts`: every string/boolean
field of the object is serialized, while an `undefined` `amount`
(`amt = none`) is dropped from the JSON body entirely, so the server
sees no `amount` key at all. -/
def serializeSessionForPut (s : Session) (amt : Option Nat) : UpdateBody :=
  { patientId := some s.patientId
    patientName := some s.patientName
    date := some s.date
    time := some s.time
    notes := some s.notes
    completed := some s.completed
    amount := amt.map some }

/-- `handleToggleComplete` in `src/app/(tabs)/upcoming.tsx` (lines
134–153): asking to complete from the upcoming view is rejected with the
"Cannot Complete" alert (a `PreconditionError` in the spec's taxonomy)
and nothing is written; asking to un-complete sends
`{ ...session, completed: false, amount: undefined }` through
`updateSession` to `PUT /sessions/:id`. -/
def handleToggleComplete (store : List Session) (s : Session) (completed : Bool) :
    List Session × Option ApiError :=
  if completed then (store, some ApiError.precondition)
  else
    match serverUpdateSession store s.userId s.id
        (serializeSessionForPut { s with completed := false } none) with
    | Except.ok r => (r.1, none)
    | Except.error e => (store, some e)

/-- `handlePaymentConfirm` in `src/app/(tabs)/upcoming.tsx` (lines
155–172): sends `{ ...session, completed: true, amount }` through
`updateSession`. -/
def handlePaymentConfirm (store : List Session) (s : Session) (amount : Nat) :
    List Session × Option ApiError :=
  match serverUpdateSession store s.userId s.id
      (serializeSessionForPut { s with completed := true } (some amount)) with
  | Except.ok r => (r.1, none)
  | Except.error e => (store, some e)

/-- `formatDateForStorage` in `src/components/SessionForm.tsx` (lines
101–107): format a `Date` from its local `getFullYear`, zero-padded
`getMonth() + 1` and `getDate()`.  The `Date` is embedded as its instant
`utcMin` (minutes since the epoch) plus the zone's
`getTimezoneOffset()` value `tzOffset` (minutes, positive west of UTC);
the local civil date is the calendar date of `utcMin - tzOffset`. -/
def formatDateForStorage (utcMin tzOffset : Int) : String :=
  let localMin := utcMin - tzOffset
  let c := civilFromDays (Int.fdiv localMin 1440).toNat
  toString c.1 ++ "-" ++ pad2 c.2.1 ++ "-" ++ pad2 c.2.2

/-- `new Date(existingSession.date)` in `src/components/SessionForm.tsx`
(line 49): a date-only `"YYYY-MM-DD"` string parses as **UTC** midnight
of that calendar date (ECMA-262 date-time string format), i.e. the
instant `days * 1440` minutes, independent of the zone offset. -/
def jsParseDate (s : String) : Option Int :=
  match parseDateYMD s with
  | some (y, m, d) => some ((daysFromCivil y m d : Nat) * 1440)
  | none => none

/-- The spec's round trip (§8): format, re-parse with `new Date`, format
again, in a zone with offset `tzOffset`. -/
def dateRoundTrip (utcMin tzOffset : Int) : Option String :=
  (jsParseDate (formatDateForStorage utcMin tzOffset)).map
    (fun i => formatDateForStorage i tzOffset)

/-- `new Date(`${date}T${time}`)` in `src/utils/notifications.ts` (line
12): a combined date-time string parses as **local** wall-clock time,
here expressed on the local-minute scale (minutes of local calendar time
since the epoch). -/
def sessionLocalMinutes (s : Session) : Option Int :=
  match parseDateYMD s.date, parseTimeHM s.time with
  | some (y, m, d), some mins => some ((daysFromCivil y m d : Nat) * 1440 + mins)
  | _, _ => none

/-- A reminder registered with the notification collaborator: the handle
returned by `scheduleNotificationAsync`, the `data.sessionId` payload,
the body text, and the one-shot trigger instant. -/
structure Reminder where
  handle : String
  sessionId : String
  body : String
  triggerAt : Int
deriving Repr, DecidableEq

/-- `scheduleSessionNotification` in `src/utils/notifications.ts` (lines
5–37): trigger is the session's local date-time minus one hour; if that
is not after "now" return `null` and register nothing, otherwise
register a one-shot notification whose body names the patient and the
time and whose data carries the session id, and return its handle
(`freshId`, the id minted by the notification service).  `now` is on the
same local-minute scale as `sessionLocalMinutes`. -/
def scheduleSessionNotification (s : Session) (now : Int) (freshId : String) :
    Option Reminder :=
  match sessionLocalMinutes s with
  | none => none
  | some t =>
    let trigger := t - 60
    if trigger ≤ now then none
    else some
      { handle := freshId
        sessionId := s.id
        body := "You have a session with " ++ s.patientName ++ " at " ++ s.time
        triggerAt := trigger }

/-- `cancelNotification` in `src/utils/notifications.ts` (lines 39–49):
remove a registered reminder by handle.  No call site exists anywhere in
the client code. -/
def cancelNotification (pending : List Reminder) (handle : String) : List Reminder :=
  pending.filter (fun r => !(decide (r.handle = handle)))

/-- The effect of `handleSubmit` in `src/components/SessionForm.tsx`
(lines 134–199) on the set of pending reminders: after a successful
create **or** update it calls `scheduleSessionNotification` for the
saved session and registers the result; it never cancels anything. -/
def sessionFormNotifyEffect (pending : List Reminder) (s : Session) (now : Int)
    (freshId : String) : List Reminder :=
  match scheduleSessionNotification s now freshId with
  | some r => pending ++ [r]
  | none => pending

/-- The completed/amount invariant of the spec (§3): a recorded amount
implies the session is completed. -/
def invariantOk (s : Session) : Bool :=
  !s.amount.isSome || s.completed

/-- Spec-side description of the truthiness-gated patch fields of
`PUT /sessions/:id`: the stored value is overwritten only when the patch
supplies a non-empty string. -/
def overwriteIfTruthy (cur : String) : Option String → String
  | some v => if v = "" then cur else v
  | none => cur

/-- Spec-side description of the presence-gated patch fields of
`PUT /sessions/:id`: the stored value is overwritten whenever the key is
present, even by `""`, `false` or `null`. -/
def overwriteIfPresent {α : Type} (cur : α) : Option α → α
  | some v => v
  | none => cur

/-- Concrete patient used by the executable scenarios. -/
def ashaPatient : PatientRec :=
  { id := "p1", userId := "u1", name := "Asha", contactNumber := "12345" }

/-- Concrete incomplete session of `ashaPatient`. -/
def ashaSession : Session :=
  { id := "s1", userId := "u1", patientId := "p1", patientName := "Asha"
    date := "2025-03-10", time := "14:00", notes := "", completed := false
    amount := none }

/-- Concrete completed session with a recorded amount. -/
def paidSession : Session :=
  { id := "s1", userId := "u1", patientId := "p1", patientName := "Asha"
    date := "2025-03-01", time := "10:00", notes := "", completed := true
    amount := some 500 }

/-- Concrete database holding `ashaPatient` and `ashaSession`. -/
def ashaDb : Db := { patients := [ashaPatient], sessions := [ashaSession] }

/-- Concrete incomplete session on today's example date at 09:00. -/
def todaySessA : Session :=
  { id := "sA", userId := "u1", patientId := "p1", patientName := "Asha"
    date := "2025-03-10", time := "09:00", notes := "", completed := false
    amount := none }

/-- Concrete completed session on today's example date at 10:00. -/
def todaySessB : Session :=
  { id := "sB", userId := "u1", patientId := "p1", patientName := "Asha"
    date := "2025-03-10", time := "10:00", notes := "", completed := true
    amount := some 300 }

/-- Concrete far-future session, whose reminder trigger is after any
small "now". -/
def futureSession : Session :=
  { id := "s1", userId := "u1", patientId := "p1", patientName := "Asha"
    date := "2030-01-01", time := "10:00", notes := "", completed := false
    amount := none }

/-- A reminder already registered for `futureSession` before an edit. -/
def oldReminder : Reminder :=
  { handle := "h1", sessionId := "s1", body := "old reminder", triggerAt := 0 }

theorem charListLt_irrefl : ∀ a, charListLt a a = false
  | [] => rfl
  | a :: as => by
    simp only [charListLt, Bool.or_eq_false_iff, Bool.and_eq_false_iff,
      decide_eq_false_iff_not]
    exact ⟨lt_irrefl a, Or.inr (charListLt_irrefl as)⟩

theorem charListLt_trans : ∀ a b c, charListLt a b = true → charListLt b c = true →
    charListLt a c = true
  | [], [], _ :: _, _, _ => rfl
  | [], _ :: _, _ :: _, _, _ => rfl
  | a :: as, b :: bs, c :: cs, h1, h2 => by
    simp only [charListLt, Bool.or_eq_true, Bool.and_eq_true, decide_eq_true_eq] at *
    rcases h1 with h1 | ⟨rfl, h1⟩
    · rcases h2 with h2 | ⟨rfl, h2⟩
      · exact Or.inl (lt_trans h1 h2)
      · exact Or.inl h1
    · rcases h2 with h2 | ⟨rfl, h2⟩
      · exact Or.inl h2
      · exact Or.inr ⟨rfl, charListLt_trans as bs cs h1 h2⟩

theorem charListLt_connex : ∀ a b, charListLt a b = false → charListLt b a = false →
    a = b
  | [], [], _, _ => rfl
  | [], _ :: _, h, _ => by simp [charListLt] at h
  | _ :: _, [], _, h => by simp [charListLt] at h
  | a :: as, b :: bs, h1, h2 => by
    simp only [charListLt, Bool.or_eq_false_iff, Bool.and_eq_false_iff,
      decide_eq_false_iff_not] at h1 h2
    rcases lt_trichotomy a b with hab | hab | hab
    · exact absurd hab h1.1
    · subst hab
      rcases h1.2 with h1' | h1'
      · exact absurd rfl h1'
      · rcases h2.2 with h2' | h2'
        · exact absurd rfl h2'
        · rw [charListLt_connex as bs h1' h2']
    · exact absurd hab h2.1

theorem str_data_inj {a b : String} (h : a.data = b.data) : a = b := by
  cases a; cases b; exact congrArg String.mk h

theorem strLtb_irrefl (a : String) : strLtb a a = false := charListLt_irrefl a.data

theorem strLtb_trans {a b c : String} (h1 : strLtb a b = true) (h2 : strLtb b c = true) :
    strLtb a c = true := charListLt_trans a.data b.data c.data h1 h2

theorem strLtb_connex {a b : String} (h1 : strLtb a b = false) (h2 : strLtb b a = false) :
    a = b := str_data_inj (charListLt_connex a.data b.data h1 h2)

theorem strLtb_asymm {a b : String} (h : strLtb a b = true) : strLtb b a = false := by
  cases hba : strLtb b a
  · rfl
  · have := strLtb_trans h hba
    rw [strLtb_irrefl] at this
    exact absurd this (by simp)

theorem strLeb_total (a b : String) : strLeb a b = true ∨ strLeb b a = true := by
  unfold strLeb
  cases hab : strLtb a b
  · cases hba : strLtb b a
    · exact Or.inl (by simp [strLtb_connex hab hba])
    · exact Or.inr (by simp)
  · exact Or.inl (by simp)

theorem strLeb_trans {a b c : String} (h1 : strLeb a b = true) (h2 : strLeb b c = true) :
    strLeb a c = true := by
  unfold strLeb at *
  simp only [Bool.or_eq_true, decide_eq_true_eq] at *
  rcases h1 with h1 | rfl
  · rcases h2 with h2 | rfl
    · exact Or.inl (strLtb_trans h1 h2)
    · exact Or.inl h1
  · exact h2

theorem dtLeb_total (a b : Session) : dtLeb a b = true ∨ dtLeb b a = true := by
  unfold dtLeb
  cases hab : strLtb a.date b.date
  · cases hba : strLtb b.date a.date
    · have hd : a.date = b.date := strLtb_connex hab hba
      rcases strLeb_total a.time b.time with ht | ht
      · exact Or.inl (by simp [hd, ht])
      · exact Or.inr (by simp [hd, ht])
    · exact Or.inr (by simp)
  · exact Or.inl (by simp)

theorem dtLeb_trans {a b c : Session} (h1 : dtLeb a b = true) (h2 : dtLeb b c = true) :
    dtLeb a c = true := by
  unfold dtLeb at *
  simp only [Bool.or_eq_true, Bool.and_eq_true, decide_eq_true_eq] at *
  rcases h1 with h1 | ⟨hd1, h1⟩
  · rcases h2 with h2 | ⟨hd2, h2⟩
    · exact Or.inl (strLtb_trans h1 h2)
    · exact Or.inl (hd2 ▸ h1)
  · rcases h2 with h2 | ⟨hd2, h2⟩
    · exact Or.inl (hd1 ▸ h2)
    · exact Or.inr ⟨hd1.trans hd2, strLeb_trans h1 h2⟩

instance : IsTotal Session dtLeR :=
  ⟨fun a b => dtLeb_total a b⟩

instance : IsTrans Session dtLeR :=
  ⟨fun _ _ _ h1 h2 => dtLeb_trans h1 h2⟩

instance : IsTotal Session dtGeR :=
  ⟨fun a b => dtLeb_total b a⟩

instance : IsTrans Session dtGeR :=
  ⟨fun _ _ _ h1 h2 => dtLeb_trans h2 h1⟩

/-- C1.  The completed/amount invariant does not survive the public
reopen operation: `handleToggleComplete` sends
`{ ...session, completed: false, amount: undefined }`, `JSON.stringify`
drops the `undefined` `amount` key, and the update route's
`if (amount !== undefined)` then leaves the stored amount untouched, so
reopening `paidSession` (completed, amount 500) yields a stored session
with `completed = false` and `amount = some 500` — a reachable state in
which `amount` is present while `completed` is false. -/
theorem reopen_keeps_amount_violating_invariant :
    handleToggleComplete [paidSession] paidSession false =
      ([{ paidSession with completed := false }], none) ∧
    ({ paidSession with completed := false } : Session).completed = false ∧
    ({ paidSession with completed := false } : Session).amount = some 500 ∧
    invariantOk { paidSession with completed := false } = false := by decide

/-- C2.  Deleting a patient does not cascade: `DELETE /patients/:id`
removes only the patient document, so Asha's session survives her
deletion (orphaned), even though the subsequent `listByPatient` call for
her id does fail with `NotFoundError` as the claim says. -/
theorem delete_patient_leaves_sessions :
    serverDeletePatient ashaDb "u1" "p1" =
      Except.ok { patients := [], sessions := [ashaSession] } ∧
    ashaSession ∈ ({ patients := [], sessions := [ashaSession] } : Db).sessions ∧
    serverListByPatient { patients := [], sessions := [ashaSession] } "u1" "p1" =
      Except.error ApiError.notFound := by decide

/-- C8.  The date round trip fails in zones west of UTC: formatting the
instant of local noon 2025-03-10 in a zone with `getTimezoneOffset() =
300` (UTC−5) gives `"2025-03-10"`, but `new Date("2025-03-10")` parses
as **UTC** midnight, whose local rendering in that zone is
`"2025-03-09"`, so
`toStorageDate(parseDate(toStorageDate(d))) ≠ toStorageDate(d)`. -/
theorem date_round_trip_fails_west_of_utc :
    formatDateForStorage (((daysFromCivil 2025 3 10 : Nat) : Int) * 1440 + 1020) 300 =
      "2025-03-10" ∧
    dateRoundTrip (((daysFromCivil 2025 3 10 : Nat) : Int) * 1440 + 1020) 300 =
      some "2025-03-09" ∧
    dateRoundTrip (((daysFromCivil 2025 3 10 : Nat) : Int) * 1440 + 1020) 300 ≠
      some (formatDateForStorage (((daysFromCivil 2025 3 10 : Nat) : Int) * 1440 + 1020) 300) := by
  decide

/-- C5 counterexample, falsifying the claim at two concrete inputs.
Order: at UTC noon of 2025-03-10 (where the UTC and local day agree),
`getTodaySessions` returns today's 10:00 session before the 09:00 one —
descending, not the claimed ascending, by `time`.  Local day: at UTC
2025-03-11 04:30 in a zone with `getTimezoneOffset() = 300` (UTC−5) the
local wall clock reads 2025-03-10 23:30, so today's canonical local
date — the spec's own `toStorageDate` of "now" — is `"2025-03-10"`; yet
`getTodaySessions` compares against the `toISOString` (UTC) date
`"2025-03-11"` and returns `[]`, missing the owner's session dated
`"2025-03-10"` that the claim says it returns. -/
theorem getTodaySessions_wrong_order_and_utc_day :
    (getTodaySessions [todaySessA, todaySessB] "u1"
        (((daysFromCivil 2025 3 10 : Nat) : Int) * 1440 + 720) =
      [todaySessB, todaySessA] ∧
     ¬ List.Pairwise (fun a b => strLeb a.time b.time = true)
        (getTodaySessions [todaySessA, todaySessB] "u1"
          (((daysFromCivil 2025 3 10 : Nat) : Int) * 1440 + 720))) ∧
    (formatDateForStorage (((daysFromCivil 2025 3 11 : Nat) : Int) * 1440 + 270) 300 =
        "2025-03-10" ∧
     todaySessA.date = "2025-03-10" ∧
     getTodaySessions [todaySessA] "u1"
        (((daysFromCivil 2025 3 11 : Nat) : Int) * 1440 + 270) = []) := by decide

/-- C6 counterexample.  `handleSubmit` never calls `cancelNotification`:
updating `futureSession` while `oldReminder` is still registered for it
appends a second reminder for the same session, leaving two pending
reminders — the prior handle is not cancelled. -/
theorem update_appends_reminder_without_cancel :
    sessionFormNotifyEffect [oldReminder] futureSession 0 "h2" =
      [oldReminder,
       { handle := "h2", sessionId := "s1"
         body := "You have a session with Asha at 10:00"
         triggerAt := ((daysFromCivil 2030 1 1 : Nat) : Int) * 1440 + 600 - 60 }] ∧
    (sessionFormNotifyEffect [oldReminder] futureSession 0 "h2").countP
      (fun r => decide (r.sessionId = "s1")) = 2 := by decide

/-- C6 amended.  Session create/update via `handleSubmit` never cancels
any previously registered reminder: every reminder pending before the
submit is still pending afterwards (a new one may be added on top). -/
theorem prior_reminders_never_cancelled (pending : List Reminder) (s : Session)
    (now : Int) (freshId : String) (r : Reminder) (h : r ∈ pending) :
    r ∈ sessionFormNotifyEffect pending s now freshId := by
  unfold sessionFormNotifyEffect
  cases scheduleSessionNotification s now freshId with
  | none => exact h
  | some rn => exact List.mem_append_left _ h

/-- Witness for `prior_reminders_never_cancelled` at a concrete pending
reminder and update. -/
theorem prior_reminders_never_cancelled_witness :
    oldReminder ∈ sessionFormNotifyEffect [oldReminder] futureSession 0 "h2" :=
  prior_reminders_never_cancelled [oldReminder] futureSession 0 "h2" oldReminder
    (by decide)

/-- C3.  Attempting to complete a not-yet-completed session whose date
is strictly in the future (today's canonical string is below the
session's `date`) is rejected by `handleToggleComplete` with the
`PreconditionError`-class alert, and the store is returned unchanged, so
the session is still there with `completed = false`. -/
theorem complete_future_session_rejected (store : List Session) (s : Session)
    (todayStr : String) (hmem : s ∈ store) (hinc : s.completed = false)
    (hfut : strLtb todayStr s.date = true) :
    handleToggleComplete store s true = (store, some ApiError.precondition) ∧
    s ∈ (handleToggleComplete store s true).1 ∧ s.completed = false := by
  refine ⟨rfl, ?_, hinc⟩
  show s ∈ store
  exact hmem

/-- Witness for `complete_future_session_rejected`: `ashaSession` dated
2025-03-10 attempted on 2025-03-09. -/
theorem complete_future_session_rejected_witness :
    handleToggleComplete [ashaSession] ashaSession true =
      ([ashaSession], some ApiError.precondition) ∧
    ashaSession ∈ (handleToggleComplete [ashaSession] ashaSession true).1 ∧
    ashaSession.completed = false :=
  complete_future_session_rejected [ashaSession] ashaSession "2025-03-09"
    (by decide) (by decide) (by decide)

/-- C9.  `scheduleSessionNotification` computes the trigger one hour
before the session's local date-time; it returns `null` and registers
nothing exactly when that trigger is not after "now", and otherwise
registers a one-shot reminder whose handle it returns, whose
`data.sessionId` is the session's id and whose body names the patient
and the time. -/
theorem schedule_null_iff_trigger_past (s : Session) (now : Int) (freshId : String)
    (t : Int) (hp : sessionLocalMinutes s = some t) :
    (scheduleSessionNotification s now freshId = none ↔ t - 60 ≤ now) ∧
    (now < t - 60 → scheduleSessionNotification s now freshId =
      some { handle := freshId, sessionId := s.id
             body := "You have a session with " ++ s.patientName ++ " at " ++ s.time
             triggerAt := t - 60 }) := by
  unfold scheduleSessionNotification
  rw [hp]
  dsimp only
  by_cases h : t - 60 ≤ now
  · rw [if_pos h]
    exact ⟨⟨fun _ => h, fun _ => rfl⟩, fun hlt => absurd h (not_le.mpr hlt)⟩
  · rw [if_neg h]
    refine ⟨⟨fun hh => ?_, fun hh => absurd hh h⟩, fun _ => rfl⟩
    cases hh

/-- Witness for `schedule_null_iff_trigger_past` at `futureSession` with
`now = 0`: the trigger is in the future, so a reminder is registered. -/
theorem schedule_null_iff_trigger_past_witness :
    scheduleSessionNotification futureSession 0 "h2" =
      some { handle := "h2", sessionId := futureSession.id
             body := "You have a session with " ++ futureSession.patientName ++
               " at " ++ futureSession.time
             triggerAt := ((daysFromCivil 2030 1 1 : Nat) : Int) * 1440 + 600 - 60 } :=
  (schedule_null_iff_trigger_past futureSession 0 "h2"
    (((daysFromCivil 2030 1 1 : Nat) : Int) * 1440 + 600) (by decide)).2 (by decide)

/-- C7.  With the schema validation modelled from the spec (the mongoose
`Session` model is not under `src/`): a create request whose patient is
owned by the caller but whose `date` **or** `time` string is malformed
fails with a `ValidationError`, and an update whose patched document
carries a malformed `date` or `time` likewise fails with a
`ValidationError`; in both cases the routes return before any write, so
malformed input is never silently coerced or persisted. -/
theorem malformed_date_or_time_rejected (db : Db) (store : List Session)
    (uid sid newId : String) (cb : CreateBody) (ub : UpdateBody)
    (p : PatientRec) (s : Session)
    (hpf : db.patients.find? (fun q =>
      decide (q.id = cb.patientId.getD "") && decide (q.userId = uid)) = some p)
    (hcv : validDate (cb.date.getD "") = false ∨ validTime (cb.time.getD "") = false)
    (hsf : store.find? (fun t => decide (t.id = sid) && decide (t.userId = uid)) = some s)
    (huv : validDate (serverApplyUpdate s ub).date = false ∨
      validTime (serverApplyUpdate s ub).time = false) :
    serverCreateSession db uid cb newId = Except.error ApiError.validation ∧
    serverUpdateSession store uid sid ub = Except.error ApiError.validation := by
  constructor
  · unfold serverCreateSession
    split
    · rfl
    · rw [hpf]
      dsimp only
      split
      · next hvt =>
          exfalso
          unfold sessionSchemaValid at hvt
          rw [Bool.and_eq_true] at hvt
          rcases hcv with h | h
          · have h1 : validDate (cb.date.getD "") = true := hvt.1
            rw [h] at h1
            exact Bool.false_ne_true h1
          · have h2 : validTime (cb.time.getD "") = true := hvt.2
            rw [h] at h2
            exact Bool.false_ne_true h2
      · rfl
  · unfold serverUpdateSession
    rw [hsf]
    dsimp only
    split
    · next hvt =>
        exfalso
        unfold sessionSchemaValid at hvt
        rw [Bool.and_eq_true] at hvt
        rcases huv with h | h
        · rw [h] at hvt
          exact Bool.false_ne_true hvt.1
        · rw [h] at hvt
          exact Bool.false_ne_true hvt.2
    · rfl

/-- Witness for `malformed_date_or_time_rejected`: a create against
`ashaDb` with a **valid** date `"2025-03-10"` but malformed time
`"14:0"` (the malformed-time disjunct), and an update of `ashaSession`
with malformed date `"bogus"`. -/
theorem malformed_date_or_time_rejected_witness :
    serverCreateSession ashaDb "u1"
      { patientId := some "p1", patientName := some "Asha", date := some "2025-03-10"
        time := some "14:0", notes := none, completed := none, amount := none }
      "s9" = Except.error ApiError.validation ∧
    serverUpdateSession [ashaSession] "u1" "s1"
      { patientId := none, patientName := none, date := some "bogus", time := none
        notes := none, completed := none, amount := none } =
      Except.error ApiError.validation :=
  malformed_date_or_time_rejected ashaDb [ashaSession] "u1" "s1" "s9"
    { patientId := some "p1", patientName := some "Asha", date := some "2025-03-10"
      time := some "14:0", notes := none, completed := none, amount := none }
    { patientId := none, patientName := none, date := some "bogus", time := none
      notes := none, completed := none, amount := none }
    ashaPatient ashaSession
    (by decide) (Or.inr (by decide)) (by decide) (Or.inl (by decide))

set_option maxHeartbeats 1600000 in
/-- C10.  The field semantics of the `PUT /sessions/:id` patch block:
`patientId`, `patientName`, `date` and `time` are overwritten only by a
truthy (non-empty) value, `notes`, `completed` and `amount` by any
present value (so `notes` can become `""`, `completed` can become
`false`, `amount` can become `null`), and `id`/`userId` are never
touched. -/
theorem update_patch_field_semantics (s : Session) (b : UpdateBody) :
    (serverApplyUpdate s b).patientId = overwriteIfTruthy s.patientId b.patientId ∧
    (serverApplyUpdate s b).patientName = overwriteIfTruthy s.patientName b.patientName ∧
    (serverApplyUpdate s b).date = overwriteIfTruthy s.date b.date ∧
    (serverApplyUpdate s b).time = overwriteIfTruthy s.time b.time ∧
    (serverApplyUpdate s b).notes = overwriteIfPresent s.notes b.notes ∧
    (serverApplyUpdate s b).completed = overwriteIfPresent s.completed b.completed ∧
    (serverApplyUpdate s b).amount = overwriteIfPresent s.amount b.amount ∧
    (serverApplyUpdate s b).id = s.id ∧
    (serverApplyUpdate s b).userId = s.userId := by
  obtain ⟨bp, bn, bd, bt, bo, bc, ba⟩ := b
  unfold serverApplyUpdate overwriteIfTruthy overwriteIfPresent
  cases bp <;> cases bn <;> cases bd <;> cases bt <;> cases bo <;> cases bc <;> cases ba <;>
    dsimp only <;> (try split_ifs) <;> exact ⟨rfl, rfl, rfl, rfl, rfl, rfl, rfl, rfl, rfl⟩

/-- Sessions kept by the no-parameter `GET /sessions` query are exactly
the owner's sessions. -/
theorem matchesQuery_empty (uid : String) (s : Session) :
    matchesQuery emptyQuery uid s = decide (s.userId = uid) := by
  unfold matchesQuery emptyQuery
  dsimp only
  rw [Bool.and_true, Bool.and_true, Bool.and_true, Bool.and_true]

/-- Splitting an owner's sessions by the completion flag is a
permutation of the owner's whole session set. -/
theorem filter_completed_split (store : List Session) (uid : String) :
    (store.filter (fun s => decide (s.userId = uid) && !s.completed) ++
      store.filter (fun s => decide (s.userId = uid) && s.completed)).Perm
      (store.filter (fun s => decide (s.userId = uid))) := by
  have e1 : store.filter (fun s => decide (s.userId = uid) && !s.completed) =
      (store.filter (fun s => decide (s.userId = uid))).filter (fun s => !s.completed) := by
    rw [List.filter_filter]
    exact List.filter_congr (fun x _ => Bool.and_comm _ _)
  have e2 : store.filter (fun s => decide (s.userId = uid) && s.completed) =
      (store.filter (fun s => decide (s.userId = uid))).filter
        (fun (s : Session) => !(!s.completed)) := by
    rw [List.filter_filter]
    refine List.filter_congr (fun x _ => ?_)
    rw [Bool.not_not, Bool.and_comm]
  rw [e1, e2]
  exact List.filter_append_perm (fun (s : Session) => !s.completed) _

/-- C4.  `listUpcoming` returns exactly the owner's incomplete sessions
in ascending `(date, time)` order, `listPast` exactly the owner's
completed sessions in descending `(date, time)` order, and together they
partition the owner's session set: their concatenation is a permutation
of all the owner's sessions while every element of the first list is
incomplete and every element of the second is completed, so the two
lists share no session. -/
theorem upcoming_past_partition_sorted (store : List Session) (uid : String) :
    (listUpcoming store uid).Perm
      (store.filter (fun s => decide (s.userId = uid) && !s.completed)) ∧
    List.Pairwise dtLeR (listUpcoming store uid) ∧
    (listPast store uid).Perm
      (store.filter (fun s => decide (s.userId = uid) && s.completed)) ∧
    List.Pairwise dtGeR (listPast store uid) ∧
    (listUpcoming store uid ++ listPast store uid).Perm
      (store.filter (fun s => decide (s.userId = uid))) ∧
    (listUpcoming store uid).all (fun s => !s.completed) = true ∧
    (listPast store uid).all (fun s => s.completed) = true := by
  have upPerm : (listUpcoming store uid).Perm
      (store.filter (fun s => decide (s.userId = uid) && !s.completed)) :=
    List.perm_insertionSort dtLeR _
  have pastPerm : (listPast store uid).Perm
      (store.filter (fun s => decide (s.userId = uid) && s.completed)) :=
    List.perm_insertionSort dtGeR _
  refine ⟨upPerm, List.sorted_insertionSort dtLeR _, pastPerm,
    List.sorted_insertionSort dtGeR _, ?_, ?_, ?_⟩
  · exact ((upPerm.append pastPerm).trans (filter_completed_split store uid))
  · rw [List.all_eq_true]
    intro x hx
    have hm := List.mem_filter.mp (upPerm.subset hx)
    exact (Bool.and_eq_true_iff.mp hm.2).2
  · rw [List.all_eq_true]
    intro x hx
    have hm := List.mem_filter.mp (pastPerm.subset hx)
    exact (Bool.and_eq_true_iff.mp hm.2).2

/-- C5 amended.  `getTodaySessions` returns exactly the owner's sessions
whose stored `date` equals the **UTC** calendar date of the evaluation
instant (the code computes "today" with `toISOString`, not the canonical
local date), in any completion state, sorted **descending** by `time`;
it is empty exactly when no session matches (an empty list, never an
error). -/
theorem getTodaySessions_exact_utc_day_time_descending (store : List Session)
    (uid : String) (nowUtcMin : Int) :
    (getTodaySessions store uid nowUtcMin).Perm
      (store.filter (fun s => decide (s.userId = uid) && decide (s.date = jsTodayUTC nowUtcMin))) ∧
    List.Pairwise (fun a b => strLeb b.time a.time = true)
      (getTodaySessions store uid nowUtcMin) ∧
    (getTodaySessions store uid nowUtcMin = [] ↔
      store.filter (fun s => decide (s.userId = uid) && decide (s.date = jsTodayUTC nowUtcMin)) = []) := by
  have hq : store.filter (matchesQuery emptyQuery uid) =
      store.filter (fun s => decide (s.userId = uid)) :=
    List.filter_congr (fun x _ => matchesQuery_empty uid x)
  have hperm : (getTodaySessions store uid nowUtcMin).Perm
      (store.filter (fun s => decide (s.userId = uid) && decide (s.date = jsTodayUTC nowUtcMin))) := by
    unfold getTodaySessions serverGetSessions
    have h1 : ((List.insertionSort dtGeR (store.filter (matchesQuery emptyQuery uid))).filter
        (fun s => decide (s.date = jsTodayUTC nowUtcMin))).Perm
        ((store.filter (matchesQuery emptyQuery uid)).filter
          (fun s => decide (s.date = jsTodayUTC nowUtcMin))) :=
      (List.perm_insertionSort dtGeR _).filter _
    refine h1.trans ?_
    rw [hq, List.filter_filter]
    rw [List.filter_congr (fun x _ => Bool.and_comm _ _)]
  have hsorted : List.Pairwise dtGeR (getTodaySessions store uid nowUtcMin) := by
    unfold getTodaySessions serverGetSessions
    exact List.Pairwise.sublist (List.filter_sublist _) (List.sorted_insertionSort dtGeR _)
  refine ⟨hperm, ?_, ?_⟩
  · refine List.Pairwise.imp_of_mem ?_ hsorted
    intro a b ha hb hR
    have hda : a.date = jsTodayUTC nowUtcMin := by
      have := (List.mem_filter.mp ha).2
      exact of_decide_eq_true this
    have hdb : b.date = jsTodayUTC nowUtcMin := by
      have := (List.mem_filter.mp hb).2
      exact of_decide_eq_true this
    unfold dtGeR dtLeb at hR
    rw [hda, hdb, strLtb_irrefl] at hR
    simpa using hR
  · constructor
    · intro h0
      rw [h0] at hperm
      exact (hperm.symm).eq_nil
    · intro h0
      rw [h0] at hperm
      exact hperm.eq_nil
